import Mathlib

set_option linter.unusedVariables false

/-! Verification development for the search_api client library.

The Python sources under verification are client.py and models.py of the
search_api package.  Pure helpers (address formatting, the validation
regexes, cache keys) are translated into executable Lean functions on
character lists; stateful operations (the cache, HTTP transport) are
modelled by explicit state passing: every search entry point takes the
cache and a network oracle and returns the outcome together with the new
cache and the list of issued requests.  External libraries (requests,
phonenumbers, dateutil, cachetools) are modelled as oracles passed in as
function arguments.  The exceptions module is not part of the given
sources; the error taxonomy below is modelled from the constructor calls
in client.py. -/

/-! Python string primitives, modelled character-wise with ASCII
semantics.  Python lower/upper/title/isdigit/isspace act on arbitrary
Unicode; the library only ever feeds them ASCII data (addresses, state
codes, domains), and the model fixes the ASCII behaviour. -/

/-- Table sending each ASCII uppercase letter to its lowercase form. -/
def lowerPairs : List (Char × Char) :=
  [('A','a'),('B','b'),('C','c'),('D','d'),('E','e'),('F','f'),('G','g'),
   ('H','h'),('I','i'),('J','j'),('K','k'),('L','l'),('M','m'),('N','n'),
   ('O','o'),('P','p'),('Q','q'),('R','r'),('S','s'),('T','t'),('U','u'),
   ('V','v'),('W','w'),('X','x'),('Y','y'),('Z','z')]

/-- Table sending each ASCII lowercase letter to its uppercase form. -/
def upperPairs : List (Char × Char) :=
  [('a','A'),('b','B'),('c','C'),('d','D'),('e','E'),('f','F'),('g','G'),
   ('h','H'),('i','I'),('j','J'),('k','K'),('l','L'),('m','M'),('n','N'),
   ('o','O'),('p','P'),('q','Q'),('r','R'),('s','S'),('t','T'),('u','U'),
   ('v','V'),('w','W'),('x','X'),('y','Y'),('z','Z')]

/-- Python str.lower on a single character (ASCII). -/
def pyLowerChar (c : Char) : Char :=
  (((lowerPairs.find? (fun p => p.1 == c)).map (fun p => p.2)).getD c)

/-- Python str.upper on a single character (ASCII). -/
def pyUpperChar (c : Char) : Char :=
  (((upperPairs.find? (fun p => p.1 == c)).map (fun p => p.2)).getD c)

/-- Python cased-character test restricted to ASCII letters. -/
def pyIsAlpha (c : Char) : Bool :=
  decide (97 ≤ c.toNat ∧ c.toNat ≤ 122) || decide (65 ≤ c.toNat ∧ c.toNat ≤ 90)

/-- Python str.isspace character set (ASCII whitespace). -/
def pyIsSpace (c : Char) : Bool :=
  decide (c.toNat = 32 ∨ c.toNat = 9 ∨ c.toNat = 10 ∨ c.toNat = 13 ∨
          c.toNat = 11 ∨ c.toNat = 12)

/-- Python decimal-digit test (ASCII digits). -/
def pyIsDigitChar (c : Char) : Bool :=
  decide (48 ≤ c.toNat ∧ c.toNat ≤ 57)

/-- Python str.lower over a character list. -/
def pyLowerC (cs : List Char) : List Char := cs.map pyLowerChar

/-- Python str.lower over a string. -/
def pyLower (s : String) : String := ⟨pyLowerC s.data⟩

/-- Python str.title: the first cased character of every cased run is
uppercased, the following cased characters are lowercased.  The Bool
argument records whether the previous character was cased. -/
def pyTitleAux : List Char → Bool → List Char
  | [], _ => []
  | c :: cs, prevCased =>
    if pyIsAlpha c then
      (if prevCased then pyLowerChar c else pyUpperChar c) :: pyTitleAux cs true
    else
      c :: pyTitleAux cs false

/-- Python str.title over a character list. -/
def pyTitleC (cs : List Char) : List Char := pyTitleAux cs false

/-- Python str.isdigit over a character list: nonempty and all digits. -/
def pyIsDigitList (cs : List Char) : Bool := !cs.isEmpty && cs.all pyIsDigitChar

/-- Python str.strip over a character list: drop ASCII whitespace from
both ends. -/
def pyStripC (cs : List Char) : List Char :=
  ((cs.dropWhile pyIsSpace).reverse.dropWhile pyIsSpace).reverse

/-- Python str.strip over a string. -/
def pyStrip (s : String) : String := ⟨pyStripC s.data⟩

/-- Helper for splitting: prepend a character to the first chunk. -/
def consHead (c : Char) : List (List Char) → List (List Char)
  | [] => [[c]]
  | t :: ts => (c :: t) :: ts

/-- Python str.split(sep) semantics for a one-character class of
separators: split at every separator character and keep empty chunks,
so the result always has one more chunk than there are separators. -/
def splitCharList (p : Char → Bool) : List Char → List (List Char)
  | [] => [[]]
  | c :: cs => if p c then [] :: splitCharList p cs else consHead c (splitCharList p cs)

/-- Python str.split() with no argument: split on whitespace runs and
drop empty chunks.  The accumulator holds the current word reversed. -/
def pyWordsAux : List Char → List Char → List (List Char)
  | [], acc => if acc.isEmpty then [] else [acc.reverse]
  | c :: cs, acc =>
    if pyIsSpace c then
      if acc.isEmpty then pyWordsAux cs [] else acc.reverse :: pyWordsAux cs []
    else
      pyWordsAux cs (c :: acc)

/-- Python str.split() with no argument, over a character list. -/
def pyWords (cs : List Char) : List (List Char) := pyWordsAux cs []

/-- Python sep.join over character lists. -/
def joinSep (sep : List Char) : List (List Char) → List Char
  | [] => []
  | [w] => w
  | w :: ws => w ++ sep ++ joinSep sep ws

/-! Constant tables of client.py. -/

/-- Street type mapping of client.py (STREET_TYPE_MAP). -/
def STREET_TYPE_MAP : List (String × String) :=
  [("st", "Street"), ("ave", "Avenue"), ("blvd", "Boulevard"), ("rd", "Road"),
   ("ln", "Lane"), ("dr", "Drive"), ("ct", "Court"), ("ter", "Terrace"),
   ("pl", "Place"), ("way", "Way"), ("pkwy", "Parkway"), ("cir", "Circle"),
   ("sq", "Square"), ("hwy", "Highway"), ("bend", "Bend"), ("cove", "Cove")]

/-- State abbreviations mapping of client.py (STATE_ABBREVIATIONS). -/
def STATE_ABBREVIATIONS : List (String × String) :=
  [("al", "AL"), ("ak", "AK"), ("az", "AZ"), ("ar", "AR"), ("ca", "CA"),
   ("co", "CO"), ("ct", "CT"), ("de", "DE"), ("fl", "FL"), ("ga", "GA"),
   ("hi", "HI"), ("id", "ID"), ("il", "IL"), ("in", "IN"), ("ia", "IA"),
   ("ks", "KS"), ("ky", "KY"), ("la", "LA"), ("me", "ME"), ("md", "MD"),
   ("ma", "MA"), ("mi", "MI"), ("mn", "MN"), ("ms", "MS"), ("mo", "MO"),
   ("mt", "MT"), ("ne", "NE"), ("nv", "NV"), ("nh", "NH"), ("nj", "NJ"),
   ("nm", "NM"), ("ny", "NY"), ("nc", "NC"), ("nd", "ND"), ("oh", "OH"),
   ("ok", "OK"), ("or", "OR"), ("pa", "PA"), ("ri", "RI"), ("sc", "SC"),
   ("sd", "SD"), ("tn", "TN"), ("tx", "TX"), ("ut", "UT"), ("vt", "VT"),
   ("va", "VA"), ("wa", "WA"), ("wv", "WV"), ("wi", "WI"), ("wy", "WY")]

/-- Major email domains that are not allowed for domain search
(MAJOR_DOMAINS in client.py; a Python set, modelled as a list). -/
def MAJOR_DOMAINS : List String :=
  ["gmail.com", "yahoo.com", "outlook.com", "hotmail.com", "aol.com",
   "icloud.com", "live.com", "msn.com", "comcast.net", "me.com",
   "mac.com", "att.net", "verizon.net", "protonmail.com", "zoho.com",
   "yandex.com", "mail.com", "gmx.com", "rocketmail.com", "yahoo.co.uk",
   "btinternet.com", "bellsouth.net"]

/-- Dictionary get on STREET_TYPE_MAP with character-list keys. -/
def streetGetC (w : List Char) : Option (List Char) :=
  (STREET_TYPE_MAP.find? (fun p => p.1.data == w)).map (fun p => p.2.data)

/-- Dictionary get on STATE_ABBREVIATIONS with character-list keys. -/
def stateGetC (w : List Char) : Option (List Char) :=
  (STATE_ABBREVIATIONS.find? (fun p => p.1.data == w)).map (fun p => p.2.data)

/-! Address formatting (SearchAPI._format_address).  The Python code
splits the address on commas, strips and drops empty components, maps
every word of every component through the street-type table keyed by
its lowercase form with title-cased fallback, and then post-processes
the final component: when it has more than one word and the last word
is all digits, the word before the digits is looked up (lowercased) in
the state table and replaced by its canonical code; otherwise, when the
component is nonempty, its last word is looked up the same way. -/

/-- Per-word formatting step of _format_address:
STREET_TYPE_MAP.get(word.lower(), word.title()). -/
def formatWordC (w : List Char) : List Char :=
  match streetGetC (pyLowerC w) with
  | some v => v
  | none => pyTitleC w

/-- Per-component formatting of _format_address: split into words, map
each word, join with single spaces. -/
def formatPartC (p : List Char) : List Char :=
  joinSep [' '] ((pyWords p).map formatWordC)

/-- Component extraction of _format_address: split on commas, strip each
component, and drop the empty ones. -/
def addrPartsC (cs : List Char) : List (List Char) :=
  ((splitCharList (fun c => c == ',') cs).map pyStripC).filter (fun t => !t.isEmpty)

/-- State fixup of _format_address applied to the final formatted
component. -/
def fixLastC (fp : List Char) : List Char :=
  if 1 < (pyWords fp).length ∧ pyIsDigitList ((pyWords fp).getLastD []) = true then
    match stateGetC (pyLowerC ((pyWords fp).dropLast.getLastD [])) with
    | some ab =>
      joinSep [' '] ((pyWords fp).dropLast.dropLast ++ [ab, (pyWords fp).getLastD []])
    | none => joinSep [' '] (pyWords fp)
  else if !(pyWords fp).isEmpty then
    match stateGetC (pyLowerC ((pyWords fp).getLastD [])) with
    | some ab => joinSep [' '] ((pyWords fp).dropLast ++ [ab])
    | none => fp
  else fp

/-- State fixup of _format_address applied to the component list: Python
mutates formatted_parts[-1] only when the list is nonempty. -/
def fixLastPartsC (fps : List (List Char)) : List (List Char) :=
  if fps.isEmpty then [] else fps.dropLast ++ [fixLastC (fps.getLastD [])]

/-- SearchAPI._format_address of client.py. -/
def format_address (s : String) : String :=
  ⟨joinSep [',', ' '] (fixLastPartsC ((addrPartsC s.data).map formatPartC))⟩

/-! Email validation regex.  client.py checks
re.match of the pattern: one or more non-at characters, at sign, one or
more non-at characters, dot, one or more non-at characters.  re.match
anchors at the start of the string only, so a match of any prefix
suffices.  The matcher below is a backtracking interpreter for a
sequence of regex atoms, where an atom is either a literal character or
a plus-quantified character class. -/

/-- Regex atom: a literal character, or a character class repeated one
or more times (greedy plus with backtracking). -/
inductive REAtom
  | lit (c : Char)
  | plusCls (p : Char → Bool)

/-- Backtracking matcher: matchGo cs rs is true when some prefix of cs
matches the atom sequence rs. -/
def matchGo : List Char → List REAtom → Bool
  | _, [] => true
  | [], _ :: _ => false
  | x :: xs, r :: rs =>
    match r with
    | .lit c => x == c && matchGo xs rs
    | .plusCls p => p x && (matchGo xs rs || matchGo xs (.plusCls p :: rs))

/-- Atom sequence of the email pattern of search_email. -/
def emailPattern : List REAtom :=
  [.plusCls (fun c => c != '@'), .lit '@',
   .plusCls (fun c => c != '@'), .lit '.',
   .plusCls (fun c => c != '@')]

/-- Test used by search_email: the email regex matches at the start of
the string. -/
def emailRegexMatch (s : String) : Bool := matchGo s.data emailPattern

/-! Domain validation regex of search_domain: anchored pattern requiring
one or more lowercase alphanumerics, then any number of groups of a
single dash or dot followed by one or more lowercase alphanumerics,
then a dot followed by at least two lowercase letters, and end of
string.  Because alphanumeric runs cannot contain dash or dot, every
dash or dot in the string is forced to be a separator, so the
decomposition into tokens is unique and the regex is equivalent to the
following deterministic check, working from the end of the string: the
final token (maximal separator-free suffix) is at least two lowercase
letters, the separator before it is a dot, and the remaining prefix
splits on separators into nonempty lowercase-alphanumeric tokens. -/

/-- Separator class of the domain regex: dash or dot. -/
def isDomSep (c : Char) : Bool := c == '-' || c == '.'

/-- Lowercase alphanumeric class of the domain regex. -/
def isLowerAlnum (c : Char) : Bool :=
  decide (97 ≤ c.toNat ∧ c.toNat ≤ 122) || decide (48 ≤ c.toNat ∧ c.toNat ≤ 57)

/-- Lowercase letter class of the domain regex. -/
def isLowerAlpha (c : Char) : Bool := decide (97 ≤ c.toNat ∧ c.toNat ≤ 122)

/-- Full-match test of the domain regex of search_domain. -/
def domainRegexMatch (s : String) : Bool :=
  let rcs := s.data.reverse
  let ftokR := rcs.takeWhile (fun c => !isDomSep c)
  match rcs.dropWhile (fun c => !isDomSep c) with
  | [] => false
  | sep :: initR =>
    sep == '.' && decide (2 ≤ ftokR.length) && ftokR.all isLowerAlpha &&
      (splitCharList isDomSep initR.reverse).all
        (fun t => !t.isEmpty && t.all isLowerAlnum)

/-! JSON values.  API responses are parsed JSON; the model restricts
numbers to integers, which covers everything the claims exercise. -/

/-- JSON value. -/
inductive JValue
  | str (s : String)
  | num (n : Int)
  | bool (b : Bool)
  | null
  | arr (xs : List JValue)
  | obj (fields : List (String × JValue))

/-- Dictionary get on a JSON object; none on absent keys and on
non-object values. -/
def jGet (v : JValue) (k : String) : Option JValue :=
  match v with
  | .obj fs => (fs.find? (fun p => p.1 == k)).map (fun p => p.2)
  | _ => none

/-- Python membership test: key in response. -/
def jHasKey (v : JValue) (k : String) : Bool := (jGet v k).isSome

/-- Python dict.get(k): absent keys and JSON null both become None. -/
def jOptField (v : JValue) (k : String) : Option JValue :=
  match jGet v k with
  | some .null => none
  | some w => some w
  | none => none

/-- Python dict.get(k, default-empty-list), then iteration: a present
array yields its elements, everything else yields the empty list.  A
present non-array value is outside the modelled response schema. -/
def jGetList (v : JValue) (k : String) : List JValue :=
  match jGet v k with
  | some (.arr xs) => xs
  | _ => []

/-- String field with a default, as in address_data.get(k, d).  A
present non-string value is outside the modelled response schema. -/
def jGetStrD (v : JValue) (k : String) (d : String) : String :=
  match jGet v k with
  | some (.str s) => s
  | _ => d

/-- Python truthiness of a JSON value. -/
def jTruthy : JValue → Bool
  | .null => false
  | .bool b => b
  | .num n => n != 0
  | .str s => !s.isEmpty
  | .arr xs => !xs.isEmpty
  | .obj fs => !fs.isEmpty

/-! Data model (models.py).  The dataclasses are untyped at runtime;
optional fields that the client stores without inspection are kept as
raw JSON values. -/

/-- Date value produced by dateutil parse followed by date(). -/
structure PyDate where
  year : Nat
  month : Nat
  day : Nat

/-- Address dataclass of models.py. -/
structure Address where
  street : String
  city : Option JValue
  state : Option JValue
  postal_code : Option JValue
  country : Option JValue
  zestimate : Option JValue

/-- PhoneNumber dataclass of models.py. -/
structure PhoneNumber where
  number : String
  country_code : String
  is_valid : Bool

/-- EmailSearchResult dataclass of models.py. -/
structure EmailSearchResult where
  email : String
  name : Option JValue
  dob : Option PyDate
  addresses : List Address
  phone_numbers : List PhoneNumber
  extra_info : Option JValue

/-- PhoneSearchResult dataclass of models.py. -/
structure PhoneSearchResult where
  phone : PhoneNumber
  name : Option JValue
  dob : Option PyDate
  addresses : List Address
  phone_numbers : List PhoneNumber
  extra_info : Option JValue

/-- DomainSearchResult dataclass of models.py. -/
structure DomainSearchResult where
  domain : String
  results : List EmailSearchResult
  total_results : Nat

/-- Value stored in the shared TTLCache self.cache: all three search
operations store into the same dictionary. -/
inductive CachedValue
  | email (r : EmailSearchResult)
  | phone (r : PhoneSearchResult)
  | domain (r : DomainSearchResult)

/-! Error taxonomy.  The exceptions module is not among the given
sources; the constructors below are modelled from the raise sites in
client.py, which pass a message, optionally a status code, and for the
generic error optionally the parsed response body.  jsonDecodeError
stands for the JSONDecodeError that response.json() raises on an
unparseable body and that client.py does not catch. -/

/-- Exception raised out of client.py, modelled from its raise sites. -/
inductive ApiError
  | validationError (msg : String)
  | authenticationError (msg : String) (status : Nat)
  | insufficientBalanceError (msg : String) (status : Nat)
  | rateLimitError (msg : String) (status : Nat)
  | serverError (msg : String) (status : Nat)
  | searchAPIError (msg : String) (status : Option Nat) (body : Option JValue)
  | jsonDecodeError

/-! Transport (SearchAPI._make_request).  The requests session is an
oracle producing, per request, either a response (status, body text,
parsed body when the text is valid JSON) or a connection failure or a
timeout.  ConnectionError and Timeout are subclasses of
RequestException and are not HTTPError, so both reach the generic
RequestException handler.  raise_for_status raises HTTPError exactly
for statuses in 400..599. -/

/-- Outcome of the underlying session.request call. -/
inductive ReqResult
  | resp (status : Nat) (text : String) (json : Option JValue)
  | connError (msg : String)
  | timeoutErr (msg : String)

/-- SearchAPI._make_request of client.py, as a function of the session
outcome. -/
def make_request (r : ReqResult) : Except ApiError JValue :=
  match r with
  | .resp st text js =>
    if 400 ≤ st ∧ st < 600 then
      if st = 401 then .error (.authenticationError "Invalid API key" st)
      else if st = 402 then .error (.insufficientBalanceError "Insufficient balance" st)
      else if st = 429 then .error (.rateLimitError "Rate limit exceeded" st)
      else if 500 ≤ st then .error (.serverError "Server error" st)
      else
        if text = "" then .error (.searchAPIError ("HTTP error: " ++ text) (some st) none)
        else
          match js with
          | some v => .error (.searchAPIError ("HTTP error: " ++ text) (some st) (some v))
          | none => .error .jsonDecodeError
    else
      match js with
      | some v => .ok v
      | none => .error .jsonDecodeError
  | .connError m => .error (.searchAPIError ("Request error: " ++ m) none none)
  | .timeoutErr m => .error (.searchAPIError ("Request error: " ++ m) none none)

/-! Parsing helpers of client.py. -/

/-- Oracle for the phonenumbers library: given the raw string, none
models a NumberParseException from parse, and some pairs the E164
formatting of the parsed number with is_valid_number. -/
abbrev PhoneLib := String → Option (String × Bool)

/-- SearchAPI._parse_phone_number of client.py. -/
def parse_phone_number (lib : PhoneLib) (s : String) : PhoneNumber :=
  match lib s with
  | some fv => { number := fv.1, country_code := "US", is_valid := fv.2 }
  | none => { number := s, country_code := "US", is_valid := false }

/-- Phone parsing of a JSON list element; the modelled schema has phone
entries as strings. -/
def jPhone (lib : PhoneLib) (v : JValue) : PhoneNumber :=
  match v with
  | .str s => parse_phone_number lib s
  | _ => { number := "", country_code := "US", is_valid := false }

/-- SearchAPI._parse_address of client.py: a string is formatted into
the street field, a dictionary is unpacked field by field. -/
def parse_address (v : JValue) : Address :=
  match v with
  | .str s =>
    { street := format_address s, city := none, state := none,
      postal_code := none, country := none, zestimate := none }
  | .obj fs =>
    { street := jGetStrD (.obj fs) "street" ""
      city := jOptField (.obj fs) "city"
      state := jOptField (.obj fs) "state"
      postal_code := jOptField (.obj fs) "postal_code"
      country := jOptField (.obj fs) "country"
      zestimate := jGet (.obj fs) "zestimate" }
  | _ =>
    { street := "", city := none, state := none,
      postal_code := none, country := none, zestimate := none }

/-- Oracle for dateutil parse followed by date(). -/
abbrev DateLib := JValue → PyDate

/-- Date-of-birth mapping: parse(response dob).date() when the dob field
is truthy, None otherwise. -/
def jDob (pdate : DateLib) (resp : JValue) : Option PyDate :=
  match jGet resp "dob" with
  | some v => if jTruthy v then some (pdate v) else none
  | none => none

/-! Cache and request bookkeeping.  TTLCache is external (cachetools);
within the TTL and capacity provisos of the claims it behaves as a
dictionary, modelled as an association list where insertion prepends.
Requests are recorded as endpoint plus the full parameter list
including the api_key parameter that _make_request appends. -/

/-- Cache state: association list from cache key to stored value. -/
abbrev Cache := List (String × CachedValue)

/-- Issued request: endpoint and full query parameters. -/
abbrev Req := String × List (String × String)

/-- Cache lookup. -/
def cacheGet (k : String) (c : Cache) : Option CachedValue :=
  (c.find? (fun p => p.1 == k)).map (fun p => p.2)

/-- Cache insertion. -/
def cachePut (k : String) (v : CachedValue) (c : Cache) : Cache := (k, v) :: c

/-- Network oracle: full query parameters to session outcome. -/
abbrev Net := List (String × String) → ReqResult

/-- Python str of a bool, as used in the cache keys. -/
def pyBoolRepr (b : Bool) : String := if b then "True" else "False"

/-- Python str of a bool lowercased, as used in the query parameters. -/
def pyBoolParam (b : Bool) : String := if b then "true" else "false"

/-- Cache key of search_email. -/
def emailCacheKey (email : String) (hv ei : Bool) : String :=
  "email_" ++ email ++ "_" ++ pyBoolRepr hv ++ "_" ++ pyBoolRepr ei

/-- Cache key of search_phone; built from the raw phone argument. -/
def phoneCacheKey (phone : String) (hv ei : Bool) : String :=
  "phone_" ++ phone ++ "_" ++ pyBoolRepr hv ++ "_" ++ pyBoolRepr ei

/-- Cache key of search_domain; built from the normalized domain. -/
def domainCacheKey (domain : String) : String := "domain_" ++ domain

/-- Query parameters of search_email. -/
def emailParams (email : String) (hv ei : Bool) : List (String × String) :=
  [("email", email), ("house_value", pyBoolParam hv), ("extra_info", pyBoolParam ei)]

/-- Query parameters of search_phone. -/
def phoneParams (phone : String) (hv ei : Bool) : List (String × String) :=
  [("phone", phone), ("house_value", pyBoolParam hv), ("extra_info", pyBoolParam ei)]

/-- Query parameters of search_domain. -/
def domainParams (domain : String) : List (String × String) := [("domain", domain)]

/-- Message of the SearchAPIError raised when the response carries an
error field; the field is a string in the modelled schema. -/
def jErrStr (resp : JValue) : String :=
  match jGet resp "error" with
  | some (.str s) => s
  | _ => ""

/-- Construction of the EmailSearchResult of search_email from the
response body. -/
def buildEmailResult (lib : PhoneLib) (pdate : DateLib) (email : String)
    (resp : JValue) : EmailSearchResult :=
  { email := email
    name := jOptField resp "name"
    dob := jDob pdate resp
    addresses := (jGetList resp "addresses").map parse_address
    phone_numbers := (jGetList resp "numbers").map (jPhone lib)
    extra_info := jOptField resp "extra_info" }

/-- SearchAPI.search_email of client.py, with the cache passed in and
out and the issued requests recorded. -/
def search_email (lib : PhoneLib) (pdate : DateLib) (net : Net) (apiKey : String)
    (cache : Cache) (email : String) (hv ei : Bool) :
    Except ApiError CachedValue × Cache × List Req :=
  if !emailRegexMatch email then
    (.error (.validationError "Invalid email format"), cache, [])
  else
    match cacheGet (emailCacheKey email hv ei) cache with
    | some v => (.ok v, cache, [])
    | none =>
      let full := emailParams email hv ei ++ [("api_key", apiKey)]
      match make_request (net full) with
      | .error e => (.error e, cache, [("search.php", full)])
      | .ok resp =>
        if jHasKey resp "error" then
          (.error (.searchAPIError (jErrStr resp) none none), cache, [("search.php", full)])
        else
          let r := buildEmailResult lib pdate email resp
          (.ok (.email r), cachePut (emailCacheKey email hv ei) (.email r) cache,
            [("search.php", full)])

/-- Construction of the PhoneSearchResult of search_phone from the
response body. -/
def buildPhoneResult (lib : PhoneLib) (pdate : DateLib) (pn : PhoneNumber)
    (resp : JValue) : PhoneSearchResult :=
  { phone := pn
    name := jOptField resp "name"
    dob := jDob pdate resp
    addresses := (jGetList resp "addresses").map parse_address
    phone_numbers := (jGetList resp "numbers").map (jPhone lib)
    extra_info := jOptField resp "extra_info" }

/-- SearchAPI.search_phone of client.py. -/
def search_phone (lib : PhoneLib) (pdate : DateLib) (net : Net) (apiKey : String)
    (cache : Cache) (phone : String) (hv ei : Bool) :
    Except ApiError CachedValue × Cache × List Req :=
  let pn := parse_phone_number lib phone
  if !pn.is_valid then
    (.error (.validationError "Invalid phone number format"), cache, [])
  else
    match cacheGet (phoneCacheKey phone hv ei) cache with
    | some v => (.ok v, cache, [])
    | none =>
      let full := phoneParams phone hv ei ++ [("api_key", apiKey)]
      match make_request (net full) with
      | .error e => (.error e, cache, [("search.php", full)])
      | .ok resp =>
        if jHasKey resp "error" then
          (.error (.searchAPIError (jErrStr resp) none none), cache, [("search.php", full)])
        else
          let r := buildPhoneResult lib pdate pn resp
          (.ok (.phone r), cachePut (phoneCacheKey phone hv ei) (.phone r) cache,
            [("search.php", full)])

/-- Mapping of one domain-search result item into an EmailSearchResult,
as written in search_domain: the email field is required (a missing key
raises KeyError in Python; the modelled schema has it present), name is
optional, addresses come from the addresses key, and phone numbers come
from the phone_numbers key.  Date of birth and extra info are not read. -/
def mapDomainItem (lib : PhoneLib) (item : JValue) : EmailSearchResult :=
  { email := jGetStrD item "email" ""
    name := jOptField item "name"
    dob := none
    addresses := (jGetList item "addresses").map parse_address
    phone_numbers := (jGetList item "phone_numbers").map (jPhone lib)
    extra_info := none }

/-- SearchAPI.search_domain of client.py. -/
def search_domain (lib : PhoneLib) (net : Net) (apiKey : String)
    (cache : Cache) (domain0 : String) :
    Except ApiError CachedValue × Cache × List Req :=
  let domain := pyStrip (pyLower domain0)
  if !domainRegexMatch domain then
    (.error (.validationError "Invalid domain format"), cache, [])
  else if domain ∈ MAJOR_DOMAINS then
    (.error (.validationError "Searching major domains is not allowed"), cache, [])
  else
    match cacheGet (domainCacheKey domain) cache with
    | some v => (.ok v, cache, [])
    | none =>
      let full := domainParams domain ++ [("api_key", apiKey)]
      match make_request (net full) with
      | .error e => (.error e, cache, [("search.php", full)])
      | .ok resp =>
        if jHasKey resp "error" then
          (.error (.searchAPIError (jErrStr resp) none none), cache, [("search.php", full)])
        else
          let results := (jGetList resp "results").map (mapDomainItem lib)
          let r : DomainSearchResult :=
            { domain := domain, results := results, total_results := results.length }
          (.ok (.domain r), cachePut (domainCacheKey domain) (.domain r) cache,
            [("search.php", full)])

/-! Spec-side characterization used to compare the email validation of
the code against the wording of the specification. -/

/-- Modelled from the spec: search_email rejects exactly the strings
that do not have exactly one at sign with a nonempty local part and a
domain part containing a dot.  This definition follows the words of the
specification, for comparison with the regex actually used by the
code. -/
def specEmailRejects (s : String) : Bool :=
  let cs := s.data
  let localPart := cs.takeWhile (fun c => c != '@')
  let domainPart := (cs.dropWhile (fun c => c != '@')).drop 1
  !(cs.countP (fun c => c == '@') == 1 && !localPart.isEmpty &&
    domainPart.contains '.')

/-! Concrete oracles and fixtures used by the witness theorems. -/

/-- Phone library oracle that fails to parse every input. -/
def lib0 : PhoneLib := fun _ => none

/-- Phone library oracle that parses every input successfully. -/
def libOk : PhoneLib := fun s => some ("+1" ++ s, true)

/-- Date library oracle returning a fixed date. -/
def pdate0 : DateLib := fun _ => { year := 2000, month := 1, day := 1 }

/-- Successful response body with a name field only. -/
def respOkBody : JValue := .obj [("name", .str "Jo")]

/-- Network oracle answering every request with status 200 and
respOkBody. -/
def netOk : Net := fun _ => .resp 200 "x" (some respOkBody)

/-- First domain-search fixture item: carries a numbers field, as email
search responses do. -/
def item6a : JValue :=
  .obj [("email", .str "x@example.com"), ("numbers", .arr [.str "5551234567"])]

/-- Second domain-search fixture item. -/
def item6b : JValue := .obj [("email", .str "y@example.com")]

/-- Domain-search fixture response with two result items. -/
def respDomain2 : JValue := .obj [("results", .arr [item6a, item6b])]

/-- Network oracle answering every request with status 200 and
respDomain2. -/
def netDomain2 : Net := fun _ => .resp 200 "x" (some respDomain2)

/-- Character list of the Python str of a bool, for reasoning about
cache keys. -/
def boolChars (b : Bool) : List Char :=
  if b then ['T','r','u','e'] else ['F','a','l','s','e']

/-! Theorems.  Each claim of the specification gets one theorem below;
corrected claims additionally get a closed counterexample theorem. -/

/-- C1 (counterexample): the transport layer does not raise dedicated
network and timeout errors, and non-2xx statuses below 400 do not raise
at all.  A connection failure and a timeout both land in the generic
RequestException handler and raise the generic SearchAPIError with no
status code, and a 304 response returns its parsed body to the caller. -/
theorem c1_counterexample :
    make_request (.connError "connection refused") =
      .error (.searchAPIError "Request error: connection refused" none none) ∧
    make_request (.timeoutErr "timed out") =
      .error (.searchAPIError "Request error: timed out" none none) ∧
    make_request (.resp 304 "x" (some respOkBody)) = .ok respOkBody :=
  ⟨rfl, rfl, rfl⟩

/-- C1 (amended): for every request issued by _make_request, a
network/connection failure and a timeout both raise the generic
SearchAPIError carrying only the request-error message, HTTP 401 raises
AuthenticationError, HTTP 402 raises InsufficientBalanceError, HTTP 429
raises RateLimitError, HTTP status in 500..599 raises ServerError
carrying the status code, any other status in 400..499 raises
SearchAPIError carrying the status code and the parsed body when the
body text is nonempty, and every status below 400 (2xx and 3xx alike)
returns the parsed JSON body to the caller. -/
theorem c1_amended :
    (∀ m, make_request (.connError m) =
        .error (.searchAPIError ("Request error: " ++ m) none none)) ∧
    (∀ m, make_request (.timeoutErr m) =
        .error (.searchAPIError ("Request error: " ++ m) none none)) ∧
    (∀ text js, make_request (.resp 401 text js) =
        .error (.authenticationError "Invalid API key" 401)) ∧
    (∀ text js, make_request (.resp 402 text js) =
        .error (.insufficientBalanceError "Insufficient balance" 402)) ∧
    (∀ text js, make_request (.resp 429 text js) =
        .error (.rateLimitError "Rate limit exceeded" 429)) ∧
    (∀ st text js, 500 ≤ st → st < 600 →
        make_request (.resp st text js) = .error (.serverError "Server error" st)) ∧
    (∀ st js, 400 ≤ st → st < 500 → st ≠ 401 → st ≠ 402 → st ≠ 429 →
        make_request (.resp st "" js) =
          .error (.searchAPIError ("HTTP error: " ++ "") (some st) none)) ∧
    (∀ st text v, 400 ≤ st → st < 500 → st ≠ 401 → st ≠ 402 → st ≠ 429 → text ≠ "" →
        make_request (.resp st text (some v)) =
          .error (.searchAPIError ("HTTP error: " ++ text) (some st) (some v))) ∧
    (∀ st text v, st < 400 →
        make_request (.resp st text (some v)) = .ok v) := by
  refine ⟨fun m => rfl, fun m => rfl, fun text js => rfl, fun text js => rfl,
    fun text js => rfl, ?_, ?_, ?_, ?_⟩
  · intro st text js h5 h6
    simp only [make_request]
    rw [if_pos (by omega), if_neg (by omega), if_neg (by omega), if_neg (by omega),
      if_pos h5]
  · intro st js h4 h5 hn1 hn2 hn3
    simp only [make_request]
    rw [if_pos (by omega), if_neg hn1, if_neg hn2, if_neg hn3, if_neg (by omega)]
    simp
  · intro st text v h4 h5 hn1 hn2 hn3 ht
    simp only [make_request]
    rw [if_pos (by omega), if_neg hn1, if_neg hn2, if_neg hn3, if_neg (by omega),
      if_neg ht]
  · intro st text v h4
    simp only [make_request]
    rw [if_neg (by omega)]

/-- C1 (witness): the amended mapping at a concrete 503 response. -/
theorem c1_witness :
    make_request (.resp 503 "oops" none) = .error (.serverError "Server error" 503) :=
  c1_amended.2.2.2.2.2.1 503 "oops" none (by omega) (by omega)

/-- C2 (counterexample): two 402 responses whose bodies supply different
balance and required-credit values raise literally the same error, so
the raised InsufficientBalanceError cannot carry any value taken from
the response; it carries only the fixed message and the status code. -/
theorem c2_counterexample :
    make_request (.resp 402 "balance 5"
        (some (.obj [("balance", .num 5), ("required_credits", .num 10)]))) =
      make_request (.resp 402 "balance 99"
        (some (.obj [("balance", .num 99), ("required_credits", .num 500)]))) ∧
    make_request (.resp 402 "balance 5"
        (some (.obj [("balance", .num 5), ("required_credits", .num 10)]))) =
      .error (.insufficientBalanceError "Insufficient balance" 402) :=
  ⟨rfl, rfl⟩

/-- C2 (amended): for every HTTP 402 response, whatever its body text
and parsed body, _make_request raises InsufficientBalanceError carrying
exactly the fixed message and the status code 402; no balance or
required-credit value from the response is attached. -/
theorem c2_amended (text : String) (js : Option JValue) :
    make_request (.resp 402 text js) =
      .error (.insufficientBalanceError "Insufficient balance" 402) := rfl

/-- C8: a phone string the phone-number library fails to parse produces
a PhoneNumber with is_valid false rather than an exception, and every
phone string whose parsed number is invalid makes search_phone raise
ValidationError with the cache untouched and no request issued. -/
theorem c8_invalid_phone :
    (∀ (lib : PhoneLib) (s : String), lib s = none →
      parse_phone_number lib s =
        { number := s, country_code := "US", is_valid := false }) ∧
    (∀ (lib : PhoneLib) (pdate : DateLib) (net : Net) (apiKey : String)
        (cache : Cache) (phone : String) (hv ei : Bool),
      (parse_phone_number lib phone).is_valid = false →
      search_phone lib pdate net apiKey cache phone hv ei =
        (.error (.validationError "Invalid phone number format"), cache, [])) := by
  constructor
  · intro lib s h
    simp [parse_phone_number, h]
  · intro lib pdate net apiKey cache phone hv ei h
    simp [search_phone, h]

/-- C8 (witness): the failing-parse oracle at a concrete input. -/
theorem c8_witness :
    parse_phone_number lib0 "not a number" =
      { number := "not a number", country_code := "US", is_valid := false } ∧
    search_phone lib0 pdate0 netOk "k" [] "not a number" false false =
      (.error (.validationError "Invalid phone number format"), [], []) :=
  ⟨c8_invalid_phone.1 lib0 "not a number" rfl,
   c8_invalid_phone.2 lib0 pdate0 netOk "k" [] "not a number" false false rfl⟩

/-- C9: every input whose lowercased and trimmed form is in the
MAJOR_DOMAINS blocklist makes search_domain raise ValidationError with
the cache untouched and no request issued, independently of the network
oracle. -/
theorem c9_major_domain_blocklist (lib : PhoneLib) (net : Net) (apiKey : String)
    (cache : Cache) (s : String) (h : pyStrip (pyLower s) ∈ MAJOR_DOMAINS) :
    search_domain lib net apiKey cache s =
      (.error (.validationError "Searching major domains is not allowed"), cache, []) := by
  have hreg : ∀ d ∈ MAJOR_DOMAINS, domainRegexMatch d = true := by decide
  simp [search_domain, hreg _ h, h]

/-- C9 (witness): the blocklist rejection at a concrete input with
uppercase letters and surrounding whitespace. -/
theorem c9_witness :
    pyStrip (pyLower " GMAIL.com ") ∈ MAJOR_DOMAINS ∧
    search_domain lib0 netOk "k" [] " GMAIL.com " =
      (.error (.validationError "Searching major domains is not allowed"), [], []) :=
  ⟨by decide, c9_major_domain_blocklist lib0 netOk "k" [] " GMAIL.com " (by decide)⟩

/-- Helper for C5: the data of a bool repr. -/
theorem pyBoolRepr_data (b : Bool) : (pyBoolRepr b).data = boolChars b := by
  cases b <;> rfl

/-- Helper for C5: a suffix of the form underscore plus bool repr is
parsed off uniquely from the right, whatever the prefix contains. -/
theorem append_boolSuffix_inj (x y : List Char) (b1 b2 : Bool)
    (h : x ++ '_' :: boolChars b1 = y ++ '_' :: boolChars b2) :
    x = y ∧ b1 = b2 := by
  cases b1 <;> cases b2
  case false.false => exact ⟨(List.append_inj' h rfl).1, rfl⟩
  case true.true => exact ⟨(List.append_inj' h rfl).1, rfl⟩
  case false.true =>
    exfalso
    have hr := congrArg List.reverse h
    rw [List.reverse_append, List.reverse_append] at hr
    have e1 : ('_' :: boolChars false).reverse = ['e','s','l','a','F','_'] := rfl
    have e2 : ('_' :: boolChars true).reverse = ['e','u','r','T','_'] := rfl
    rw [e1, e2] at hr
    simp only [List.cons_append, List.cons.injEq] at hr
    exact absurd hr.2.1 (by decide)
  case true.false =>
    exfalso
    have hr := congrArg List.reverse h
    rw [List.reverse_append, List.reverse_append] at hr
    have e1 : ('_' :: boolChars false).reverse = ['e','s','l','a','F','_'] := rfl
    have e2 : ('_' :: boolChars true).reverse = ['e','u','r','T','_'] := rfl
    rw [e1, e2] at hr
    simp only [List.cons_append, List.cons.injEq] at hr
    exact absurd hr.2.1 (by decide)

/-- Helper for C5: data of the email cache key. -/
theorem emailCacheKey_data (e : String) (h x : Bool) :
    (emailCacheKey e h x).data =
      'e' :: 'm' :: 'a' :: 'i' :: 'l' :: '_' ::
        (e.data ++ '_' :: (boolChars h ++ '_' :: boolChars x)) := by
  cases h <;> cases x <;>
    (simp only [emailCacheKey, String.data_append, List.append_assoc]; rfl)

/-- Helper for C5: data of the phone cache key. -/
theorem phoneCacheKey_data (p : String) (h x : Bool) :
    (phoneCacheKey p h x).data =
      'p' :: 'h' :: 'o' :: 'n' :: 'e' :: '_' ::
        (p.data ++ '_' :: (boolChars h ++ '_' :: boolChars x)) := by
  cases h <;> cases x <;>
    (simp only [phoneCacheKey, String.data_append, List.append_assoc]; rfl)

/-- Helper for C5: data of the domain cache key. -/
theorem domainCacheKey_data (d : String) :
    (domainCacheKey d).data =
      'd' :: 'o' :: 'm' :: 'a' :: 'i' :: 'n' :: '_' :: d.data := rfl

/-- Helper for C5: regrouping the triple key layout for right-to-left
parsing. -/
theorem keyRegroup (e B C : List Char) :
    e ++ '_' :: (B ++ '_' :: C) = (e ++ '_' :: B) ++ '_' :: C := by
  simp

/-- Helper for C5 and C10: the email cache key determines the email and
both flags. -/
theorem emailCacheKey_inj (e1 e2 : String) (h1 x1 h2 x2 : Bool)
    (h : emailCacheKey e1 h1 x1 = emailCacheKey e2 h2 x2) :
    e1 = e2 ∧ h1 = h2 ∧ x1 = x2 := by
  have hd := congrArg String.data h
  rw [emailCacheKey_data, emailCacheKey_data] at hd
  simp only [List.cons.injEq, true_and] at hd
  rw [keyRegroup, keyRegroup] at hd
  obtain ⟨hd3, hx⟩ := append_boolSuffix_inj _ _ _ _ hd
  obtain ⟨hd4, hh⟩ := append_boolSuffix_inj _ _ _ _ hd3
  exact ⟨String.ext hd4, hh, hx⟩

/-- Helper for C5: the phone cache key determines the phone and both
flags. -/
theorem phoneCacheKey_inj (p1 p2 : String) (h1 x1 h2 x2 : Bool)
    (h : phoneCacheKey p1 h1 x1 = phoneCacheKey p2 h2 x2) :
    p1 = p2 ∧ h1 = h2 ∧ x1 = x2 := by
  have hd := congrArg String.data h
  rw [phoneCacheKey_data, phoneCacheKey_data] at hd
  simp only [List.cons.injEq, true_and] at hd
  rw [keyRegroup, keyRegroup] at hd
  obtain ⟨hd3, hx⟩ := append_boolSuffix_inj _ _ _ _ hd
  obtain ⟨hd4, hh⟩ := append_boolSuffix_inj _ _ _ _ hd3
  exact ⟨String.ext hd4, hh, hx⟩

/-- C5: cache keys deterministically encode the operation and every
argument that affects the result.  Within each operation the key is
injective in all arguments (so logically identical requests share a key
and requests differing in any argument, including the house-value flag,
never do), and keys of different operations never collide, even though
all three operations share one cache. -/
theorem c5_cache_key_fingerprint :
    (∀ (e1 : String) (h1 x1 : Bool) (e2 : String) (h2 x2 : Bool),
      emailCacheKey e1 h1 x1 = emailCacheKey e2 h2 x2 ↔
        (e1 = e2 ∧ h1 = h2 ∧ x1 = x2)) ∧
    (∀ (p1 : String) (h1 x1 : Bool) (p2 : String) (h2 x2 : Bool),
      phoneCacheKey p1 h1 x1 = phoneCacheKey p2 h2 x2 ↔
        (p1 = p2 ∧ h1 = h2 ∧ x1 = x2)) ∧
    (∀ d1 d2 : String, domainCacheKey d1 = domainCacheKey d2 ↔ d1 = d2) ∧
    (∀ (e : String) (h1 x1 : Bool) (p : String) (h2 x2 : Bool),
      emailCacheKey e h1 x1 ≠ phoneCacheKey p h2 x2) ∧
    (∀ (e : String) (h1 x1 : Bool) (d : String),
      emailCacheKey e h1 x1 ≠ domainCacheKey d) ∧
    (∀ (p : String) (h1 x1 : Bool) (d : String),
      phoneCacheKey p h1 x1 ≠ domainCacheKey d) := by
  refine ⟨?_, ?_, ?_, ?_, ?_, ?_⟩
  · intro e1 h1 x1 e2 h2 x2
    constructor
    · exact emailCacheKey_inj e1 e2 h1 x1 h2 x2
    · rintro ⟨rfl, rfl, rfl⟩; rfl
  · intro p1 h1 x1 p2 h2 x2
    constructor
    · exact phoneCacheKey_inj p1 p2 h1 x1 h2 x2
    · rintro ⟨rfl, rfl, rfl⟩; rfl
  · intro d1 d2
    constructor
    · intro h
      have hd := congrArg String.data h
      rw [domainCacheKey_data, domainCacheKey_data] at hd
      simp only [List.cons.injEq, true_and] at hd
      exact String.ext hd
    · rintro rfl; rfl
  · intro e h1 x1 p h2 x2 h
    have hd := congrArg String.data h
    rw [emailCacheKey_data, phoneCacheKey_data] at hd
    injection hd with hc _
    exact absurd hc (by decide)
  · intro e h1 x1 d h
    have hd := congrArg String.data h
    rw [emailCacheKey_data, domainCacheKey_data] at hd
    injection hd with hc _
    exact absurd hc (by decide)
  · intro p h1 x1 d h
    have hd := congrArg String.data h
    rw [phoneCacheKey_data, domainCacheKey_data] at hd
    injection hd with hc _
    exact absurd hc (by decide)

/-- C7: under the TTL and capacity provisos, when a valid email misses
the cache and the network returns a successful response without an
error field, the first search_email call issues exactly one request and
stores the constructed result, and a second call with identical email
and flags issues no request at all and returns exactly the stored
value, leaving the cache unchanged. -/
theorem c7_cache_idempotence (lib : PhoneLib) (pdate : DateLib) (net : Net)
    (apiKey : String) (cache : Cache) (email : String) (hv ei : Bool) (resp : JValue)
    (hval : emailRegexMatch email = true)
    (hmiss : cacheGet (emailCacheKey email hv ei) cache = none)
    (hresp : make_request (net (emailParams email hv ei ++ [("api_key", apiKey)])) = .ok resp)
    (hnoerr : jHasKey resp "error" = false) :
    search_email lib pdate net apiKey cache email hv ei =
      (.ok (.email (buildEmailResult lib pdate email resp)),
       (emailCacheKey email hv ei, .email (buildEmailResult lib pdate email resp)) :: cache,
       [("search.php", emailParams email hv ei ++ [("api_key", apiKey)])]) ∧
    search_email lib pdate net apiKey
        ((emailCacheKey email hv ei, .email (buildEmailResult lib pdate email resp)) :: cache)
        email hv ei =
      (.ok (.email (buildEmailResult lib pdate email resp)),
       (emailCacheKey email hv ei, .email (buildEmailResult lib pdate email resp)) :: cache,
       []) := by
  constructor
  · simp [search_email, hval, hmiss, hresp, hnoerr, cachePut]
  · simp [search_email, hval, cacheGet]

/-- C7 (witness): the idempotence pair at a concrete email and a
concrete network oracle. -/
theorem c7_witness :
    search_email lib0 pdate0 netOk "k" [] "a@b.com" false false =
      (.ok (.email (buildEmailResult lib0 pdate0 "a@b.com" respOkBody)),
       [(emailCacheKey "a@b.com" false false,
         .email (buildEmailResult lib0 pdate0 "a@b.com" respOkBody))],
       [("search.php", emailParams "a@b.com" false false ++ [("api_key", "k")])]) ∧
    search_email lib0 pdate0 netOk "k"
        [(emailCacheKey "a@b.com" false false,
          .email (buildEmailResult lib0 pdate0 "a@b.com" respOkBody))]
        "a@b.com" false false =
      (.ok (.email (buildEmailResult lib0 pdate0 "a@b.com" respOkBody)),
       [(emailCacheKey "a@b.com" false false,
         .email (buildEmailResult lib0 pdate0 "a@b.com" respOkBody))],
       []) :=
  c7_cache_idempotence lib0 pdate0 netOk "k" [] "a@b.com" false false respOkBody
    (by decide) rfl rfl rfl

/-- C10: search_email performs no normalization of the email argument:
two distinct raw inputs (in particular inputs differing only in letter
case) have distinct cache keys, and each call sends the raw input as
the email request parameter and stores it unchanged in the result, so
the second call misses the entry cached by the first and issues its own
request. -/
theorem c10_no_email_normalization (lib : PhoneLib) (pdate : DateLib) (net : Net)
    (apiKey : String) (cache : Cache) (e1 e2 : String) (hv ei : Bool)
    (resp1 resp2 : JValue)
    (hne : e1 ≠ e2)
    (hval1 : emailRegexMatch e1 = true) (hval2 : emailRegexMatch e2 = true)
    (hm1 : cacheGet (emailCacheKey e1 hv ei) cache = none)
    (hm2 : cacheGet (emailCacheKey e2 hv ei) cache = none)
    (hr1 : make_request (net (emailParams e1 hv ei ++ [("api_key", apiKey)])) = .ok resp1)
    (hr2 : make_request (net (emailParams e2 hv ei ++ [("api_key", apiKey)])) = .ok resp2)
    (hn1 : jHasKey resp1 "error" = false) (hn2 : jHasKey resp2 "error" = false) :
    emailCacheKey e1 hv ei ≠ emailCacheKey e2 hv ei ∧
    (buildEmailResult lib pdate e1 resp1).email = e1 ∧
    (buildEmailResult lib pdate e2 resp2).email = e2 ∧
    ("email", e1) ∈ emailParams e1 hv ei ∧
    ("email", e2) ∈ emailParams e2 hv ei ∧
    search_email lib pdate net apiKey cache e1 hv ei =
      (.ok (.email (buildEmailResult lib pdate e1 resp1)),
       (emailCacheKey e1 hv ei, .email (buildEmailResult lib pdate e1 resp1)) :: cache,
       [("search.php", emailParams e1 hv ei ++ [("api_key", apiKey)])]) ∧
    search_email lib pdate net apiKey
        ((emailCacheKey e1 hv ei, .email (buildEmailResult lib pdate e1 resp1)) :: cache)
        e2 hv ei =
      (.ok (.email (buildEmailResult lib pdate e2 resp2)),
       (emailCacheKey e2 hv ei, .email (buildEmailResult lib pdate e2 resp2)) ::
         (emailCacheKey e1 hv ei, .email (buildEmailResult lib pdate e1 resp1)) :: cache,
       [("search.php", emailParams e2 hv ei ++ [("api_key", apiKey)])]) := by
  have hkne : emailCacheKey e1 hv ei ≠ emailCacheKey e2 hv ei := fun h =>
    hne (emailCacheKey_inj e1 e2 hv ei hv ei h).1
  refine ⟨hkne, rfl, rfl, by simp [emailParams], by simp [emailParams], ?_, ?_⟩
  · simp [search_email, hval1, hm1, hr1, hn1, cachePut]
  · have hbeq : (emailCacheKey e1 hv ei == emailCacheKey e2 hv ei) = false :=
      beq_eq_false_iff_ne.mpr hkne
    have hget : cacheGet (emailCacheKey e2 hv ei)
        ((emailCacheKey e1 hv ei, .email (buildEmailResult lib pdate e1 resp1)) :: cache) =
          none := by
      simp only [cacheGet] at hm2 ⊢
      rw [List.find?_cons_of_neg _ (by simp [hbeq])]
      exact hm2
    simp [search_email, hval2, hget, hr2, hn2, cachePut]

/-- C10 (witness): two emails differing only in letter case, at a
concrete network oracle. -/
theorem c10_witness :
    emailCacheKey "A@b.com" false false ≠ emailCacheKey "a@b.com" false false ∧
    (buildEmailResult lib0 pdate0 "A@b.com" respOkBody).email = "A@b.com" ∧
    (buildEmailResult lib0 pdate0 "a@b.com" respOkBody).email = "a@b.com" ∧
    ("email", "A@b.com") ∈ emailParams "A@b.com" false false ∧
    ("email", "a@b.com") ∈ emailParams "a@b.com" false false ∧
    search_email lib0 pdate0 netOk "k" [] "A@b.com" false false =
      (.ok (.email (buildEmailResult lib0 pdate0 "A@b.com" respOkBody)),
       [(emailCacheKey "A@b.com" false false,
         .email (buildEmailResult lib0 pdate0 "A@b.com" respOkBody))],
       [("search.php", emailParams "A@b.com" false false ++ [("api_key", "k")])]) ∧
    search_email lib0 pdate0 netOk "k"
        [(emailCacheKey "A@b.com" false false,
          .email (buildEmailResult lib0 pdate0 "A@b.com" respOkBody))]
        "a@b.com" false false =
      (.ok (.email (buildEmailResult lib0 pdate0 "a@b.com" respOkBody)),
       [(emailCacheKey "a@b.com" false false,
         .email (buildEmailResult lib0 pdate0 "a@b.com" respOkBody)),
        (emailCacheKey "A@b.com" false false,
         .email (buildEmailResult lib0 pdate0 "A@b.com" respOkBody))],
       [("search.php", emailParams "a@b.com" false false ++ [("api_key", "k")])]) :=
  c10_no_email_normalization lib0 pdate0 netOk "k" [] "A@b.com" "a@b.com" false false
    respOkBody respOkBody (by decide) (by decide) (by decide) rfl rfl rfl rfl rfl rfl

/-- Helper: the empty atom sequence matches everything. -/
theorem matchGo_nil_pattern (cs : List Char) : matchGo cs [] = true := by
  cases cs <;> rfl

/-- Helper: matching a leading literal atom. -/
theorem matchGo_lit (c : Char) (rs : List REAtom) (cs : List Char) :
    matchGo cs (.lit c :: rs) = true ↔
      ∃ cs', cs = c :: cs' ∧ matchGo cs' rs = true := by
  cases cs with
  | nil =>
    simp only [matchGo]
    constructor
    · intro h; cases h
    · rintro ⟨cs', h, _⟩; cases h
  | cons x xs =>
    simp only [matchGo, Bool.and_eq_true, beq_iff_eq]
    constructor
    · rintro ⟨rfl, h⟩; exact ⟨xs, rfl, h⟩
    · rintro ⟨cs', hcs, h⟩
      injection hcs with h1 h2
      subst h1; subst h2
      exact ⟨rfl, h⟩

/-- Helper: matching a leading plus-quantified class atom. -/
theorem matchGo_plus (p : Char → Bool) (rs : List REAtom) (cs : List Char) :
    matchGo cs (.plusCls p :: rs) = true ↔
      ∃ a cs', cs = a ++ cs' ∧ a ≠ [] ∧ (∀ x ∈ a, p x = true) ∧
        matchGo cs' rs = true := by
  induction cs with
  | nil =>
    simp only [matchGo]
    constructor
    · intro h; cases h
    · rintro ⟨a, cs', hsplit, hne, _, _⟩
      exact absurd (List.append_eq_nil.mp hsplit.symm).1 hne
  | cons x xs ih =>
    simp only [matchGo, Bool.and_eq_true, Bool.or_eq_true]
    constructor
    · rintro ⟨hpx, h | h⟩
      · exact ⟨[x], xs, rfl, by simp, by intro y hy; simp at hy; subst hy; exact hpx, h⟩
      · obtain ⟨a, cs', rfl, hne, hall, hm⟩ := ih.mp h
        refine ⟨x :: a, cs', rfl, by simp, ?_, hm⟩
        intro y hy
        rcases List.mem_cons.mp hy with rfl | hy
        · exact hpx
        · exact hall y hy
    · rintro ⟨a, cs', hsplit, hne, hall, hm⟩
      cases a with
      | nil => exact absurd rfl hne
      | cons a0 atl =>
        rw [List.cons_append] at hsplit
        injection hsplit with h1 h2
        subst h1
        refine ⟨hall x (by simp), ?_⟩
        cases atl with
        | nil =>
          left; rw [h2]; exact hm
        | cons b0 btl =>
          right
          exact ih.mpr ⟨b0 :: btl, cs', h2, by simp, fun y hy => hall y (by simp [hy]), hm⟩

/-- Helper: dropWhile runs past a block of characters satisfying the
predicate. -/
theorem dropWhile_append_all (p : Char → Bool) (a t : List Char)
    (h : ∀ x ∈ a, p x = true) : List.dropWhile p (a ++ t) = List.dropWhile p t := by
  induction a with
  | nil => rfl
  | cons x xs ih =>
    rw [List.cons_append, List.dropWhile_cons, h x (List.mem_cons_self x xs)]
    exact ih (fun y hy => h y (List.mem_cons_of_mem x hy))

/-- Helper: closed-form characterization of the email regex used by
search_email: a prefix of the string decomposes as a nonempty at-free
block, an at sign, a nonempty at-free block, a dot, and one further
non-at character. -/
theorem emailRegex_characterization (s : String) :
    emailRegexMatch s = true ↔
      ∃ a b c r, s.data = a ++ '@' :: (b ++ '.' :: c :: r) ∧
        a ≠ [] ∧ b ≠ [] ∧ (∀ x ∈ a, x ≠ '@') ∧ (∀ x ∈ b, x ≠ '@') ∧ c ≠ '@' := by
  unfold emailRegexMatch emailPattern
  constructor
  · intro h
    obtain ⟨a, cs1, h1, hane, haall, h⟩ := (matchGo_plus _ _ _).mp h
    obtain ⟨cs2, h2, h⟩ := (matchGo_lit _ _ _).mp h
    obtain ⟨b, cs3, h3, hbne, hball, h⟩ := (matchGo_plus _ _ _).mp h
    obtain ⟨cs4, h4, h⟩ := (matchGo_lit _ _ _).mp h
    obtain ⟨cfin, cs5, h5, hcne, hcall, _⟩ := (matchGo_plus _ _ _).mp h
    obtain ⟨c, ctail, rfl⟩ : ∃ c ct, cfin = c :: ct := by
      cases cfin with
      | nil => exact absurd rfl hcne
      | cons c ct => exact ⟨c, ct, rfl⟩
    refine ⟨a, b, c, ctail ++ cs5, ?_, hane, hbne, ?_, ?_, ?_⟩
    · rw [h1, h2, h3, h4, h5]; simp
    · intro x hx; simpa using haall x hx
    · intro x hx; simpa using hball x hx
    · simpa using hcall c (List.mem_cons_self c ctail)
  · rintro ⟨a, b, c, r, hs, hane, hbne, haall, hball, hc⟩
    apply (matchGo_plus _ _ _).mpr
    refine ⟨a, '@' :: (b ++ '.' :: c :: r), hs, hane,
      fun x hx => by simpa using haall x hx, ?_⟩
    apply (matchGo_lit _ _ _).mpr
    refine ⟨b ++ '.' :: c :: r, rfl, ?_⟩
    apply (matchGo_plus _ _ _).mpr
    refine ⟨b, '.' :: c :: r, rfl, hbne, fun x hx => by simpa using hball x hx, ?_⟩
    apply (matchGo_lit _ _ _).mpr
    refine ⟨c :: r, rfl, ?_⟩
    apply (matchGo_plus _ _ _).mpr
    refine ⟨[c], r, rfl, by simp, ?_, matchGo_nil_pattern r⟩
    intro y hy; simp at hy; subst hy; simpa using hc

/-- C4 (counterexample): the validation set of search_email is not the
set described by the claim.  The string with two at signs a@b.c@d is
accepted by the code (the call proceeds to the network) although the
claim requires rejection, and the string a@b. is rejected by the code
although it has exactly one at sign, a nonempty local part, and a dot
in the domain part, so the claim requires acceptance. -/
theorem c4_counterexample :
    ((search_email lib0 pdate0 netOk "k" [] "a@b.c@d" false false).1 =
        .ok (.email (buildEmailResult lib0 pdate0 "a@b.c@d" respOkBody)) ∧
      specEmailRejects "a@b.c@d" = true) ∧
    ((search_email lib0 pdate0 netOk "k" [] "a@b." false false).1 =
        .error (.validationError "Invalid email format") ∧
      specEmailRejects "a@b." = false) :=
  ⟨⟨rfl, rfl⟩, ⟨rfl, rfl⟩⟩

/-- C4 (amended): search_email raises ValidationError, before any cache
access or network call, exactly for the strings that do not start with
a nonempty at-free block, an at sign, a nonempty at-free block, a dot,
and at least one further non-at character; in particular every string
without an at sign, and every string with no dot after its first at
sign, is rejected, and rejection touches neither the cache nor the
network. -/
theorem c4_amended :
    (∀ s : String, emailRegexMatch s = false ↔
      ¬ ∃ a b c r, s.data = a ++ '@' :: (b ++ '.' :: c :: r) ∧
        a ≠ [] ∧ b ≠ [] ∧ (∀ x ∈ a, x ≠ '@') ∧ (∀ x ∈ b, x ≠ '@') ∧ c ≠ '@') ∧
    (∀ s : String, '@' ∉ s.data → emailRegexMatch s = false) ∧
    (∀ s : String, '.' ∉ ((s.data.dropWhile (fun c => c != '@')).drop 1) →
      emailRegexMatch s = false) ∧
    (∀ (lib : PhoneLib) (pdate : DateLib) (net : Net) (apiKey : String)
        (cache : Cache) (s : String) (hv ei : Bool),
      emailRegexMatch s = false →
      search_email lib pdate net apiKey cache s hv ei =
        (.error (.validationError "Invalid email format"), cache, [])) := by
  refine ⟨?_, ?_, ?_, ?_⟩
  · intro s
    constructor
    · intro hf hex
      rw [(emailRegex_characterization s).mpr hex] at hf
      cases hf
    · intro hnot
      cases hmatch : emailRegexMatch s with
      | false => rfl
      | true => exact absurd ((emailRegex_characterization s).mp hmatch) hnot
  · intro s hat
    cases hmatch : emailRegexMatch s with
    | false => rfl
    | true =>
      obtain ⟨a, b, c, r, hs, -, -, -, -, -⟩ := (emailRegex_characterization s).mp hmatch
      exact absurd (by rw [hs]; simp : '@' ∈ s.data) hat
  · intro s hdot
    cases hmatch : emailRegexMatch s with
    | false => rfl
    | true =>
      obtain ⟨a, b, c, r, hs, -, -, haall, -, -⟩ := (emailRegex_characterization s).mp hmatch
      apply absurd _ hdot
      rw [hs, dropWhile_append_all _ a _ (fun x hx => by simpa using haall x hx)]
      rw [List.dropWhile_cons]
      simp
  · intro lib pdate net apiKey cache s hv ei h
    simp [search_email, h]

/-- C4 (witness): the amended rejection at a concrete invalid email. -/
theorem c4_witness :
    search_email lib0 pdate0 netOk "k" [] "abc" false false =
      (.error (.validationError "Invalid email format"), [], []) :=
  c4_amended.2.2.2 lib0 pdate0 netOk "k" [] "abc" false false (by decide)

/-- C6 (counterexample): domain-search items are not read with the same
field shape as email search responses.  A result item carrying its
phone strings under the numbers key, as email responses do, is mapped
to an EmailSearchResult with an empty phone list, because search_domain
reads the phone_numbers key instead. -/
theorem c6_counterexample :
    (search_domain lib0 netDomain2 "k" [] "example.com").1 =
      .ok (.domain
        { domain := "example.com"
          results := [mapDomainItem lib0 item6a, mapDomainItem lib0 item6b]
          total_results := 2 }) ∧
    jGetList item6a "numbers" = [.str "5551234567"] ∧
    (mapDomainItem lib0 item6a).phone_numbers = [] :=
  ⟨rfl, rfl, rfl⟩

/-- C6 (amended): for every successful domain search response,
search_domain maps each item of the results list, in response order,
into an EmailSearchResult via mapDomainItem, which reads the email and
name fields, the addresses list, and the phone strings from the
phone_numbers key (not the numbers key used by email search responses,
and without the dob and extra_info fields), and returns a
DomainSearchResult whose total_results equals the number of mapped
items. -/
theorem c6_amended (lib : PhoneLib) (net : Net) (apiKey : String) (cache : Cache)
    (d : String) (resp : JValue)
    (hreg : domainRegexMatch (pyStrip (pyLower d)) = true)
    (hmaj : pyStrip (pyLower d) ∉ MAJOR_DOMAINS)
    (hmiss : cacheGet (domainCacheKey (pyStrip (pyLower d))) cache = none)
    (hresp : make_request
        (net (domainParams (pyStrip (pyLower d)) ++ [("api_key", apiKey)])) = .ok resp)
    (hnoerr : jHasKey resp "error" = false) :
    search_domain lib net apiKey cache d =
      (.ok (.domain
        { domain := pyStrip (pyLower d)
          results := (jGetList resp "results").map (mapDomainItem lib)
          total_results := (jGetList resp "results").length }),
       cachePut (domainCacheKey (pyStrip (pyLower d)))
         (.domain
           { domain := pyStrip (pyLower d)
             results := (jGetList resp "results").map (mapDomainItem lib)
             total_results := (jGetList resp "results").length }) cache,
       [("search.php", domainParams (pyStrip (pyLower d)) ++ [("api_key", apiKey)])]) := by
  simp [search_domain, hreg, hmaj, hmiss, hresp, hnoerr, cachePut, List.length_map]

/-- C6 (witness): the amended mapping at a concrete response with two
result items, yielding total_results two and both entries in response
order. -/
theorem c6_witness :
    search_domain lib0 netDomain2 "k" [] "example.com" =
      (.ok (.domain
        { domain := "example.com"
          results := [mapDomainItem lib0 item6a, mapDomainItem lib0 item6b]
          total_results := 2 }),
       [(domainCacheKey "example.com",
         .domain
           { domain := "example.com"
             results := [mapDomainItem lib0 item6a, mapDomainItem lib0 item6b]
             total_results := 2 })],
       [("search.php", domainParams "example.com" ++ [("api_key", "k")])]) :=
  c6_amended lib0 netDomain2 "k" [] "example.com" respDomain2
    (by decide) (by decide) rfl rfl rfl

/-- Helper: a find? hit on a character pair table gives the key and
membership. -/
theorem find?_pairs_some {l : List (Char × Char)} {c : Char} {p : Char × Char}
    (h : l.find? (fun q => q.1 == c) = some p) : p.1 = c ∧ p ∈ l := by
  have h1 := List.find?_some h
  simp only [beq_iff_eq] at h1
  exact ⟨h1, List.mem_of_find?_eq_some h⟩

/-- Helper: lowercase of uppercase is lowercase. -/
theorem pyLowerChar_pyUpperChar (c : Char) :
    pyLowerChar (pyUpperChar c) = pyLowerChar c := by
  unfold pyUpperChar
  cases hf : upperPairs.find? (fun q => q.1 == c) with
  | none => rfl
  | some p =>
    obtain ⟨hp1, hmem⟩ := find?_pairs_some hf
    subst hp1
    have hall : ∀ q ∈ upperPairs, pyLowerChar q.2 = pyLowerChar q.1 := by decide
    exact hall p hmem

/-- Helper: lowercasing is idempotent. -/
theorem pyLowerChar_pyLowerChar (c : Char) :
    pyLowerChar (pyLowerChar c) = pyLowerChar c := by
  cases hf : lowerPairs.find? (fun q => q.1 == c) with
  | none =>
    have hval : pyLowerChar c = c := by unfold pyLowerChar; rw [hf]; rfl
    rw [hval]; exact hval
  | some p =>
    obtain ⟨hp1, hmem⟩ := find?_pairs_some hf
    subst hp1
    have hval : pyLowerChar p.1 = p.2 := by unfold pyLowerChar; rw [hf]; rfl
    rw [hval]
    have hall : ∀ q ∈ lowerPairs, pyLowerChar q.2 = q.2 := by decide
    exact hall p hmem

/-- Helper: title-casing does not change the lowercased form. -/
theorem pyTitleAux_lower (cs : List Char) (b : Bool) :
    pyLowerC (pyTitleAux cs b) = pyLowerC cs := by
  induction cs generalizing b with
  | nil => rfl
  | cons c cs ih =>
    by_cases h : pyIsAlpha c = true
    · cases b with
      | false =>
        simp only [pyTitleAux, h, if_true, Bool.false_eq_true, if_false, pyLowerC,
          List.map_cons]
        rw [pyLowerChar_pyUpperChar]
        have := ih true
        simp only [pyLowerC] at this
        rw [this]
      | true =>
        simp only [pyTitleAux, h, if_true, pyLowerC, List.map_cons]
        rw [pyLowerChar_pyLowerChar]
        have := ih true
        simp only [pyLowerC] at this
        rw [this]
    · simp only [pyTitleAux, h, Bool.false_eq_true, if_false, pyLowerC, List.map_cons]
      have := ih false
      simp only [pyLowerC] at this
      rw [this]

/-- Helper: a digit character is not a cased character. -/
theorem digit_not_alpha (c : Char) (h : pyIsDigitChar c = true) : pyIsAlpha c = false := by
  simp only [pyIsDigitChar, decide_eq_true_eq] at h
  simp only [pyIsAlpha, Bool.or_eq_false_iff, decide_eq_false_iff_not]
  omega

/-- Helper: a character outside the lowercase table is fixed by
lowercasing. -/
theorem pyLowerChar_not_alpha (c : Char) (h : pyIsAlpha c = false) :
    pyLowerChar c = c := by
  cases hf : lowerPairs.find? (fun q => q.1 == c) with
  | none => unfold pyLowerChar; rw [hf]; rfl
  | some p =>
    obtain ⟨hp1, hmem⟩ := find?_pairs_some hf
    subst hp1
    have hall : ∀ q ∈ lowerPairs, pyIsAlpha q.1 = true := by decide
    rw [hall p hmem] at h
    cases h

/-- Helper: title-casing fixes character lists without cased
characters. -/
theorem pyTitleAux_not_alpha (cs : List Char) (b : Bool)
    (h : ∀ c ∈ cs, pyIsAlpha c = false) : pyTitleAux cs b = cs := by
  induction cs generalizing b with
  | nil => rfl
  | cons c cs ih =>
    have hc := h c (List.mem_cons_self c cs)
    simp only [pyTitleAux, hc, Bool.false_eq_true, if_false]
    rw [ih false (fun y hy => h y (List.mem_cons_of_mem c hy))]

/-- Helper: lowercasing fixes character lists without cased
characters. -/
theorem pyLowerC_not_alpha (cs : List Char)
    (h : ∀ c ∈ cs, pyIsAlpha c = false) : pyLowerC cs = cs := by
  induction cs with
  | nil => rfl
  | cons c cs ih =>
    simp only [pyLowerC, List.map_cons]
    rw [pyLowerChar_not_alpha c (h c (List.mem_cons_self c cs))]
    have := ih (fun y hy => h y (List.mem_cons_of_mem c hy))
    simp only [pyLowerC] at this
    rw [this]

/-- Helper: street lookup misses on all-digit words. -/
theorem streetGetC_digits (w : List Char) (h : ∀ c ∈ w, pyIsDigitChar c = true) :
    streetGetC w = none := by
  unfold streetGetC
  cases hf : STREET_TYPE_MAP.find? (fun p => p.1.data == w) with
  | none => rfl
  | some p =>
    exfalso
    have h1 := List.find?_some hf
    simp only [beq_iff_eq] at h1
    have hmem := List.mem_of_find?_eq_some hf
    have hall : ∀ q ∈ STREET_TYPE_MAP, ¬ (∀ c ∈ q.1.data, pyIsDigitChar c = true) := by
      decide
    exact hall p hmem (by rw [h1]; exact h)

/-- Helper: an all-digit word is fixed by the per-word formatting
step. -/
theorem formatWordC_digits (z : List Char) (h : ∀ c ∈ z, pyIsDigitChar c = true) :
    formatWordC z = z := by
  have hna : ∀ c ∈ z, pyIsAlpha c = false := fun c hc => digit_not_alpha c (h c hc)
  unfold formatWordC
  rw [pyLowerC_not_alpha z hna, streetGetC_digits z h]
  exact pyTitleAux_not_alpha z false hna

/-- Helper: uppercasing preserves non-whitespace. -/
theorem pyIsSpace_pyUpperChar (c : Char) (h : pyIsSpace c = false) :
    pyIsSpace (pyUpperChar c) = false := by
  unfold pyUpperChar
  cases hf : upperPairs.find? (fun q => q.1 == c) with
  | none => exact h
  | some p =>
    have hmem := List.mem_of_find?_eq_some hf
    have hall : ∀ q ∈ upperPairs, pyIsSpace q.2 = false := by decide
    exact hall p hmem

/-- Helper: lowercasing preserves non-whitespace. -/
theorem pyIsSpace_pyLowerChar (c : Char) (h : pyIsSpace c = false) :
    pyIsSpace (pyLowerChar c) = false := by
  unfold pyLowerChar
  cases hf : lowerPairs.find? (fun q => q.1 == c) with
  | none => exact h
  | some p =>
    have hmem := List.mem_of_find?_eq_some hf
    have hall : ∀ q ∈ lowerPairs, pyIsSpace q.2 = false := by decide
    exact hall p hmem

/-- Helper: title-casing preserves freedom from whitespace. -/
theorem pyTitleAux_space_free (cs : List Char) (b : Bool)
    (h : ∀ c ∈ cs, pyIsSpace c = false) :
    ∀ c ∈ pyTitleAux cs b, pyIsSpace c = false := by
  induction cs generalizing b with
  | nil => intro c hc; cases hc
  | cons c cs ih =>
    intro y hy
    have hc := h c (List.mem_cons_self c cs)
    have htl : ∀ x ∈ cs, pyIsSpace x = false :=
      fun x hx => h x (List.mem_cons_of_mem c hx)
    by_cases ha : pyIsAlpha c = true
    · simp only [pyTitleAux, ha, if_true] at hy
      rcases List.mem_cons.mp hy with rfl | hy
      · cases b with
        | true => exact pyIsSpace_pyLowerChar c hc
        | false => exact pyIsSpace_pyUpperChar c hc
      · exact ih true htl y hy
    · simp only [pyTitleAux, ha, Bool.false_eq_true, if_false] at hy
      rcases List.mem_cons.mp hy with rfl | hy
      · exact hc
      · exact ih false htl y hy

/-- Helper: title-casing preserves length. -/
theorem pyTitleAux_length (cs : List Char) (b : Bool) :
    (pyTitleAux cs b).length = cs.length := by
  induction cs generalizing b with
  | nil => rfl
  | cons c cs ih =>
    by_cases h : pyIsAlpha c = true
    · simp only [pyTitleAux, h, if_true, List.length_cons, ih true]
    · simp only [pyTitleAux, h, Bool.false_eq_true, if_false, List.length_cons, ih false]

/-- Helper: the word splitter consumes a whitespace-free block into the
accumulator. -/
theorem pyWordsAux_append_block (w : List Char) (cs acc : List Char)
    (hw : ∀ c ∈ w, pyIsSpace c = false) :
    pyWordsAux (w ++ cs) acc = pyWordsAux cs (w.reverse ++ acc) := by
  induction w generalizing acc with
  | nil => simp
  | cons c cw ih =>
    have hc := hw c (List.mem_cons_self c cw)
    rw [List.cons_append]
    simp only [pyWordsAux, hc, Bool.false_eq_true, if_false]
    rw [ih (c :: acc) (fun y hy => hw y (List.mem_cons_of_mem c hy))]
    simp [List.append_assoc]

/-- Helper: the word splitter at a whitespace character flushes the
accumulator. -/
theorem pyWordsAux_space (c : Char) (cs acc : List Char) (hc : pyIsSpace c = true) :
    pyWordsAux (c :: cs) acc =
      if acc.isEmpty then pyWordsAux cs [] else acc.reverse :: pyWordsAux cs [] := by
  simp only [pyWordsAux, hc, if_true]

/-- Helper: splitting a single-space join of nonempty whitespace-free
words recovers the words.  This is the inverse relation between the
word-level formatting of a component and the re-splitting that the
state fixup performs on the already formatted component. -/
theorem pyWords_joinSep (ws : List (List Char))
    (h : ∀ w ∈ ws, w ≠ [] ∧ ∀ c ∈ w, pyIsSpace c = false) :
    pyWords (joinSep [' '] ws) = ws := by
  induction ws with
  | nil => rfl
  | cons w ws ih =>
    obtain ⟨hwne, hwsp⟩ := h w (List.mem_cons_self w ws)
    cases ws with
    | nil =>
      show pyWordsAux (joinSep [' '] [w]) [] = [w]
      have : joinSep [' '] [w] = w ++ [] := by simp [joinSep]
      rw [this, pyWordsAux_append_block w [] [] hwsp]
      simp only [pyWordsAux, List.append_nil, List.isEmpty_eq_true,
        List.reverse_eq_nil_iff]
      rw [if_neg (by simpa using hwne)]
      simp
    | cons w2 ws2 =>
      have hjoin : joinSep [' '] (w :: w2 :: ws2) =
          w ++ (' ' :: joinSep [' '] (w2 :: ws2)) := by
        simp [joinSep]
      show pyWordsAux (joinSep [' '] (w :: w2 :: ws2)) [] = w :: w2 :: ws2
      rw [hjoin, pyWordsAux_append_block w _ [] hwsp,
        pyWordsAux_space ' ' _ _ (by decide)]
      rw [if_neg (by simpa using hwne)]
      simp only [List.append_nil, List.reverse_reverse]
      have := ih (fun y hy => h y (List.mem_cons_of_mem w hy))
      simp only [pyWords] at this
      rw [this]

/-- Helper: every word the splitter produces is nonempty and free of
whitespace. -/
theorem pyWordsAux_sound (cs : List Char) (acc : List Char)
    (hacc : ∀ c ∈ acc, pyIsSpace c = false) :
    ∀ w ∈ pyWordsAux cs acc, w ≠ [] ∧ ∀ c ∈ w, pyIsSpace c = false := by
  induction cs generalizing acc with
  | nil =>
    intro w hw
    simp only [pyWordsAux] at hw
    by_cases h : acc.isEmpty
    · rw [if_pos h] at hw; cases hw
    · rw [if_neg h] at hw
      rcases List.mem_singleton.mp hw with rfl
      refine ⟨by simpa using h, ?_⟩
      intro c hc
      exact hacc c (List.mem_reverse.mp hc)
  | cons c cs ih =>
    intro w hw
    by_cases hsp : pyIsSpace c = true
    · rw [pyWordsAux_space c cs acc hsp] at hw
      by_cases h : acc.isEmpty
      · rw [if_pos h] at hw
        exact ih [] (fun y hy => absurd hy (List.not_mem_nil y)) w hw
      · rw [if_neg h] at hw
        rcases List.mem_cons.mp hw with rfl | hw
        · refine ⟨by simpa using h, ?_⟩
          intro x hx
          exact hacc x (List.mem_reverse.mp hx)
        · exact ih [] (fun y hy => absurd hy (List.not_mem_nil y)) w hw
    · have hsp' : pyIsSpace c = false := by
        cases hv : pyIsSpace c
        · rfl
        · exact absurd hv hsp
      simp only [pyWordsAux, hsp', Bool.false_eq_true, if_false] at hw
      refine ih (c :: acc) ?_ w hw
      intro y hy
      rcases List.mem_cons.mp hy with rfl | hy
      · exact hsp'
      · exact hacc y hy

/-- Helper: the per-word formatting step preserves nonemptiness and
freedom from whitespace. -/
theorem formatWordC_sound (w : List Char) (hne : w ≠ [])
    (hsp : ∀ c ∈ w, pyIsSpace c = false) :
    formatWordC w ≠ [] ∧ ∀ c ∈ formatWordC w, pyIsSpace c = false := by
  unfold formatWordC
  cases hf : streetGetC (pyLowerC w) with
  | some v =>
    unfold streetGetC at hf
    cases hff : STREET_TYPE_MAP.find? (fun p => p.1.data == pyLowerC w) with
    | none => rw [hff] at hf; cases hf
    | some p =>
      rw [hff] at hf
      have hv : p.2.data = v := by simpa using hf
      subst hv
      have hmem := List.mem_of_find?_eq_some hff
      have hall : ∀ q ∈ STREET_TYPE_MAP,
          q.2.data ≠ [] ∧ ∀ c ∈ q.2.data, pyIsSpace c = false := by decide
      exact hall p hmem
  | none =>
    constructor
    · intro hcon
      have hl := congrArg List.length hcon
      unfold pyTitleC at hl
      rw [pyTitleAux_length] at hl
      simp only [List.length_nil] at hl
      exact hne (List.eq_nil_of_length_eq_zero hl)
    · exact pyTitleAux_space_free w false hsp

/-- C3 (amended): for every address string whose final comma-separated
component ends with a recognized state abbreviation followed by a
numeric postal-code token, and whose abbreviation is not itself a
street-suffix abbreviation (the two tables overlap on ct), address
formatting replaces the abbreviation with its canonical two-letter
code, keeps the postal code, formats every other word of the final
component through the street-suffix table with title-case fallback, and
formats every earlier component the same way. -/
theorem c3_amended (s : String) (initParts : List (List Char)) (L : List Char)
    (ws0 : List (List Char)) (w z AB : List Char)
    (hparts : addrPartsC s.data = initParts ++ [L])
    (hwords : pyWords L = ws0 ++ [w, z])
    (hdig : pyIsDigitList z = true)
    (hstate : stateGetC (pyLowerC w) = some AB)
    (hnostreet : streetGetC (pyLowerC w) = none) :
    format_address s =
      ⟨joinSep [',', ' ']
        ((initParts.map formatPartC) ++
          [joinSep [' '] ((ws0.map formatWordC) ++ [AB, z])])⟩ := by
  have hsound : ∀ u ∈ ws0 ++ [w, z], u ≠ [] ∧ ∀ c ∈ u, pyIsSpace c = false := by
    rw [← hwords]
    exact pyWordsAux_sound L [] (fun c hc => absurd hc (List.not_mem_nil c))
  have hzdig : ∀ c ∈ z, pyIsDigitChar c = true := by
    have hd := hdig
    simp only [pyIsDigitList, Bool.and_eq_true, List.all_eq_true] at hd
    exact fun c hc => hd.2 c hc
  have hfz : formatWordC z = z := formatWordC_digits z hzdig
  have hfw : formatWordC w = pyTitleC w := by
    unfold formatWordC; rw [hnostreet]
  have hmapsound : ∀ u ∈ (ws0 ++ [w, z]).map formatWordC,
      u ≠ [] ∧ ∀ c ∈ u, pyIsSpace c = false := by
    intro u hu
    obtain ⟨v, hv, rfl⟩ := List.mem_map.mp hu
    obtain ⟨hvne, hvsp⟩ := hsound v hv
    exact formatWordC_sound v hvne hvsp
  have hresplit : pyWords (formatPartC L) =
      (ws0.map formatWordC) ++ [formatWordC w, z] := by
    unfold formatPartC
    rw [hwords, pyWords_joinSep _ hmapsound, List.map_append]
    simp [hfz]
  have hfix : fixLastC (formatPartC L) =
      joinSep [' '] ((ws0.map formatWordC) ++ [AB, z]) := by
    unfold fixLastC
    rw [hresplit]
    have hX1 : ((ws0.map formatWordC) ++ [formatWordC w, z]).getLastD [] = z := by
      rw [show (ws0.map formatWordC) ++ [formatWordC w, z] =
        ((ws0.map formatWordC) ++ [formatWordC w]) ++ [z] by simp]
      simp
    have hX2 : ((ws0.map formatWordC) ++ [formatWordC w, z]).dropLast =
        (ws0.map formatWordC) ++ [formatWordC w] := by
      rw [show (ws0.map formatWordC) ++ [formatWordC w, z] =
        ((ws0.map formatWordC) ++ [formatWordC w]) ++ [z] by simp]
      simp
    rw [hX1, hX2]
    have hX3 : ((ws0.map formatWordC) ++ [formatWordC w]).getLastD [] =
        formatWordC w := by simp
    have hX4 : ((ws0.map formatWordC) ++ [formatWordC w]).dropLast =
        ws0.map formatWordC := by simp
    rw [hX3, hX4, hfw]
    have hstl : stateGetC (pyLowerC (pyTitleC w)) = some AB := by
      unfold pyTitleC
      rw [pyTitleAux_lower]
      exact hstate
    rw [hstl]
    rw [if_pos ⟨by
      simp only [List.length_append, List.length_map, List.length_cons,
        List.length_nil]
      omega, hdig⟩]
  unfold format_address
  rw [hparts, List.map_append]
  unfold fixLastPartsC
  rw [if_neg (by simp)]
  have hd : ((initParts.map formatPartC) ++ [L].map formatPartC).dropLast =
      initParts.map formatPartC := by simp
  have hg : ((initParts.map formatPartC) ++ [L].map formatPartC).getLastD [] =
      formatPartC L := by simp
  rw [hd, hg, hfix]

/-- C3 (witness): the amended formatting at the concrete address from
the specification, with street-suffix expansion, title-casing, and
state-code canonicalization. -/
theorem c3_witness :
    format_address "123 main st, anytown, ca 12345" =
      "123 Main Street, Anytown, CA 12345" := by
  have h := c3_amended "123 main st, anytown, ca 12345"
    ["123 main st".data, "anytown".data] "ca 12345".data
    [] "ca".data "12345".data "CA".data
    (by decide) (by decide) (by decide) (by decide) (by decide)
  rw [h]
  decide

/-- C3 (counterexample): the claim fails for the state abbreviation ct,
which is also a street-suffix abbreviation.  The final component of the
address ends with the recognized state abbreviation ct followed by a
numeric postal code, yet formatting expands ct to Court in the per-word
pass, so the state lookup misses and the canonical code CT never
appears. -/
theorem c3_counterexample :
    stateGetC (pyLowerC "ct".data) = some "CT".data ∧
    pyIsDigitList "06101".data = true ∧
    format_address "1 x, ct 06101" = "1 X, Court 06101" ∧
    format_address "1 x, ct 06101" ≠ "1 X, CT 06101" :=
  ⟨by decide, by decide, by decide, by decide⟩

/-- C5 (witness): the key discrimination at the concrete pair of
requests from the specification, differing only in the house-value
flag. -/
theorem c5_witness :
    emailCacheKey "a@b.com" true false = emailCacheKey "a@b.com" false false ↔
      ("a@b.com" = "a@b.com" ∧ true = false ∧ false = false) :=
  c5_cache_key_fingerprint.1 "a@b.com" true false "a@b.com" false false
